import Mathlib

/-!
Verification development for the license-key system in
`250511-license-key-system/main.go`.

Go strings and byte slices are modelled as `List Nat` with every element
below 256 (Go indexes strings by byte).  Machine words are `Nat` with
explicit masking (`% 2^32` or `&&& 0xFFFFFFFF`) where 32-bit overflow
matters.  Fallible Go functions returning `(T, error)` become
`Except Unit T` (the program only distinguishes error from success per
field), and Go panics are modelled by a dedicated constructor of the
result type of the operation that can panic.

The Ed25519 primitive from `crypto/ed25519` is kept abstract as a
`SigScheme` (sign / core verification / public-key derivation), while the
length checks and the panic behaviour of `ed25519.Sign`, `ed25519.Verify`
and `ed25519.PrivateKey.Public` — which the repository's behaviour visibly
depends on — are modelled concretely from the Go standard library.
SHA-1, hex, base64 and UUID text handling are modelled concretely.
-/

/-- Byte list of an ASCII string literal, used to write Go string
constants. -/
def strBytes (s : String) : List Nat :=
  s.data.map Char.toNat

/-! ### encoding/hex

`hex.EncodeToString` writes, for each byte, `hextable[b>>4]` then
`hextable[b&0x0f]` with `hextable = "0123456789abcdef"`; on a byte `b`,
`b >> 4 = b / 16` and `b & 0x0f = b % 16`. -/

/-- The `hextable` constant of `encoding/hex`. -/
def hexTable : List Nat :=
  strBytes "0123456789abcdef"

/-- One hex digit: `hextable[v]`. -/
def hexDigit (v : Nat) : Nat :=
  hexTable.getD v 0

/-- Embeds `hex.EncodeToString`: each byte becomes its two lowercase hex
digits, high nibble first. -/
def hexEncodeGo : List Nat → List Nat
  | [] => []
  | b :: rest => hexDigit (b / 16) :: hexDigit (b % 16) :: hexEncodeGo rest

/-- Embeds `fromHexChar` of `encoding/hex`: digits `0`-`9`, letters
`a`-`f` and `A`-`F` are accepted. -/
def fromHexChar (c : Nat) : Option Nat :=
  if 48 ≤ c ∧ c ≤ 57 then some (c - 48)
  else if 97 ≤ c ∧ c ≤ 102 then some (c - 97 + 10)
  else if 65 ≤ c ∧ c ≤ 70 then some (c - 65 + 10)
  else none

/-- Embeds `hex.DecodeString`: bytes are decoded pairwise
(`dst[i] = a<<4 | b`, i.e. `a*16 + b`); a trailing lone digit, or any
non-hex character, is an error (`InvalidByteError` / `ErrLength`, both
collapsed to `Except.error ()` here). -/
def hexDecodeGo : List Nat → Except Unit (List Nat)
  | [] => .ok []
  | [_] => .error ()
  | a :: b :: rest =>
    match fromHexChar a, fromHexChar b with
    | some x, some y =>
      match hexDecodeGo rest with
      | .ok tl => .ok ((x * 16 + y) :: tl)
      | .error e => .error e
    | _, _ => .error ()

/-! ### github.com/google/uuid: the UUID value and its text forms -/

/-- A `uuid.UUID` is `[16]byte`; the sixteen bytes are explicit fields. -/
structure UUID where
  b0 : Nat
  b1 : Nat
  b2 : Nat
  b3 : Nat
  b4 : Nat
  b5 : Nat
  b6 : Nat
  b7 : Nat
  b8 : Nat
  b9 : Nat
  b10 : Nat
  b11 : Nat
  b12 : Nat
  b13 : Nat
  b14 : Nat
  b15 : Nat
  deriving DecidableEq, Repr

/-- The raw bytes `uuid[:]`. -/
def UUID.bytes (u : UUID) : List Nat :=
  [u.b0, u.b1, u.b2, u.b3, u.b4, u.b5, u.b6, u.b7,
   u.b8, u.b9, u.b10, u.b11, u.b12, u.b13, u.b14, u.b15]

/-- Well-formedness of the model: every field is a byte. -/
def UUID.valid (u : UUID) : Prop :=
  u.b0 < 256 ∧ u.b1 < 256 ∧ u.b2 < 256 ∧ u.b3 < 256 ∧
  u.b4 < 256 ∧ u.b5 < 256 ∧ u.b6 < 256 ∧ u.b7 < 256 ∧
  u.b8 < 256 ∧ u.b9 < 256 ∧ u.b10 < 256 ∧ u.b11 < 256 ∧
  u.b12 < 256 ∧ u.b13 < 256 ∧ u.b14 < 256 ∧ u.b15 < 256

instance (u : UUID) : Decidable u.valid := by
  unfold UUID.valid; infer_instance

/-- Embeds `UUID.String` (via `encodeHex`): lowercase hex of the sixteen
bytes with `-` (byte 45) at positions 8, 13, 18 and 23. -/
def uuidToString (u : UUID) : List Nat :=
  [hexDigit (u.b0 / 16), hexDigit (u.b0 % 16),
   hexDigit (u.b1 / 16), hexDigit (u.b1 % 16),
   hexDigit (u.b2 / 16), hexDigit (u.b2 % 16),
   hexDigit (u.b3 / 16), hexDigit (u.b3 % 16), 45,
   hexDigit (u.b4 / 16), hexDigit (u.b4 % 16),
   hexDigit (u.b5 / 16), hexDigit (u.b5 % 16), 45,
   hexDigit (u.b6 / 16), hexDigit (u.b6 % 16),
   hexDigit (u.b7 / 16), hexDigit (u.b7 % 16), 45,
   hexDigit (u.b8 / 16), hexDigit (u.b8 % 16),
   hexDigit (u.b9 / 16), hexDigit (u.b9 % 16), 45,
   hexDigit (u.b10 / 16), hexDigit (u.b10 % 16),
   hexDigit (u.b11 / 16), hexDigit (u.b11 % 16),
   hexDigit (u.b12 / 16), hexDigit (u.b12 % 16),
   hexDigit (u.b13 / 16), hexDigit (u.b13 % 16),
   hexDigit (u.b14 / 16), hexDigit (u.b14 % 16),
   hexDigit (u.b15 / 16), hexDigit (u.b15 % 16)]

/-- Embeds `xtob` of `github.com/google/uuid`: two hex characters to one
byte, `xvalues[x]<<4 | xvalues[y]`, failing if either is not hex. -/
def xtob (x y : Nat) : Option Nat :=
  match fromHexChar x, fromHexChar y with
  | some a, some b => some (a * 16 + b)
  | _, _ => none

/-- Embeds the dashed 36-character branch of `uuid.Parse`: dashes are
required at indices 8, 13, 18 and 23, and the sixteen byte pairs sit at
offsets 0,2,4,6, 9,11, 14,16, 19,21, 24,26,28,30,32,34.  Characters past
index 35 are ignored, as in Go (the 38-character branch reuses this on a
37-character tail). -/
def parse36 (s : List Nat) : Except Unit UUID :=
  match s with
  | v0 :: v1 :: v2 :: v3 :: v4 :: v5 :: v6 :: v7 :: v8 :: v9 :: v10 :: v11 ::
    v12 :: v13 :: v14 :: v15 :: v16 :: v17 :: v18 :: v19 :: v20 :: v21 :: v22 ::
    v23 :: v24 :: v25 :: v26 :: v27 :: v28 :: v29 :: v30 :: v31 :: v32 :: v33 ::
    v34 :: v35 :: _ =>
    if v8 ≠ 45 ∨ v13 ≠ 45 ∨ v18 ≠ 45 ∨ v23 ≠ 45 then .error () else
    match xtob v0 v1, xtob v2 v3, xtob v4 v5, xtob v6 v7,
          xtob v9 v10, xtob v11 v12, xtob v14 v15, xtob v16 v17,
          xtob v19 v20, xtob v21 v22, xtob v24 v25, xtob v26 v27,
          xtob v28 v29, xtob v30 v31, xtob v32 v33, xtob v34 v35 with
    | some c0, some c1, some c2, some c3, some c4, some c5, some c6, some c7,
      some c8, some c9, some c10, some c11, some c12, some c13, some c14,
      some c15 =>
        .ok ⟨c0, c1, c2, c3, c4, c5, c6, c7, c8, c9, c10, c11, c12, c13, c14, c15⟩
    | _, _, _, _, _, _, _, _, _, _, _, _, _, _, _, _ => .error ()
  | _ => .error ()

/-- Embeds the 32-character branch of `uuid.Parse`: sixteen consecutive
hex pairs, no dashes. -/
def parse32 (s : List Nat) : Except Unit UUID :=
  match s with
  | v0 :: v1 :: v2 :: v3 :: v4 :: v5 :: v6 :: v7 :: v8 :: v9 :: v10 :: v11 ::
    v12 :: v13 :: v14 :: v15 :: v16 :: v17 :: v18 :: v19 :: v20 :: v21 :: v22 ::
    v23 :: v24 :: v25 :: v26 :: v27 :: v28 :: v29 :: v30 :: v31 :: _ =>
    match xtob v0 v1, xtob v2 v3, xtob v4 v5, xtob v6 v7,
          xtob v8 v9, xtob v10 v11, xtob v12 v13, xtob v14 v15,
          xtob v16 v17, xtob v18 v19, xtob v20 v21, xtob v22 v23,
          xtob v24 v25, xtob v26 v27, xtob v28 v29, xtob v30 v31 with
    | some c0, some c1, some c2, some c3, some c4, some c5, some c6, some c7,
      some c8, some c9, some c10, some c11, some c12, some c13, some c14,
      some c15 =>
        .ok ⟨c0, c1, c2, c3, c4, c5, c6, c7, c8, c9, c10, c11, c12, c13, c14, c15⟩
    | _, _, _, _, _, _, _, _, _, _, _, _, _, _, _, _ => .error ()
  | _ => .error ()

/-- ASCII lower-casing of one byte, for `strings.EqualFold` on the ASCII
literal `"urn:uuid:"`. -/
def asciiLower (c : Nat) : Nat :=
  if 65 ≤ c ∧ c ≤ 90 then c + 32 else c

/-- Case-insensitive ASCII equality of byte lists (the use
`strings.EqualFold(s[:9], "urn:uuid:")` only ever compares against an
ASCII literal). -/
def eqFoldAscii (a b : List Nat) : Bool :=
  a.map asciiLower == b.map asciiLower

/-- Embeds `uuid.Parse`: dispatch on the byte length — 36 dashed, 45 with
a case-insensitive `urn:uuid:` first, 38 with the first character
dropped (Go checks no braces), 32 plain hex, anything else an error. -/
def uuidParse (s : List Nat) : Except Unit UUID :=
  if s.length = 36 then parse36 s
  else if s.length = 45 then
    if eqFoldAscii (s.take 9) (strBytes "urn:uuid:") then parse36 (s.drop 9)
    else .error ()
  else if s.length = 38 then parse36 (s.drop 1)
  else if s.length = 32 then parse32 s
  else .error ()

/-! ### crypto/sha1, as used by `uuid.NewSHA1`

Standard FIPS-180 SHA-1 over byte lists.  32-bit words are `Nat` masked
with `&&& 0xFFFFFFFF` wherever an addition or shift could overflow. -/

/-- Left rotation of a 32-bit word. -/
def rotl32 (k x : Nat) : Nat :=
  ((x <<< k) ||| (x >>> (32 - k))) &&& 0xFFFFFFFF

/-- Big-endian 4-byte groups to 32-bit words. -/
def bytesToWords : List Nat → List Nat
  | b0 :: b1 :: b2 :: b3 :: rest =>
    (b0 * 16777216 + b1 * 65536 + b2 * 256 + b3) :: bytesToWords rest
  | _ => []

/-- Message-schedule extension, with the schedule kept newest-first:
each step prepends `rotl1 (w[i-3] ^ w[i-8] ^ w[i-14] ^ w[i-16])`. -/
def sha1ExtendRev (acc : List Nat) : Nat → List Nat
  | 0 => acc
  | n + 1 =>
    sha1ExtendRev
      (rotl32 1 (acc.getD 2 0 ^^^ acc.getD 7 0 ^^^ acc.getD 13 0 ^^^ acc.getD 15 0) :: acc)
      n

/-- Round function and constant for round `i` (0-based). -/
def sha1FK (i b c d : Nat) : Nat × Nat :=
  if i < 20 then ((b &&& c) ||| ((b ^^^ 0xFFFFFFFF) &&& d), 0x5A827999)
  else if i < 40 then (b ^^^ c ^^^ d, 0x6ED9EBA1)
  else if i < 60 then ((b &&& c) ||| (b &&& d) ||| (c &&& d), 0x8F1BBCDC)
  else (b ^^^ c ^^^ d, 0xCA62C1D6)

/-- The 80 compression rounds over the message schedule. -/
def sha1Rounds (i : Nat) (ws : List Nat) (st : Nat × Nat × Nat × Nat × Nat) :
    Nat × Nat × Nat × Nat × Nat :=
  match ws with
  | [] => st
  | w :: rest =>
    match st with
    | (a, b, c, d, e) =>
      let fk := sha1FK i b c d
      let temp := (rotl32 5 a + fk.1 + e + fk.2 + w) &&& 0xFFFFFFFF
      sha1Rounds (i + 1) rest (temp, a, rotl32 30 b, c, d)

/-- One 64-byte block: extend to 80 words, run the rounds, add into the
running state modulo 2^32. -/
def sha1Block (st : Nat × Nat × Nat × Nat × Nat) (block : List Nat) :
    Nat × Nat × Nat × Nat × Nat :=
  let ws := (sha1ExtendRev (bytesToWords block).reverse 64).reverse
  match st with
  | (h0, h1, h2, h3, h4) =>
    match sha1Rounds 0 ws st with
    | (a, b, c, d, e) =>
      ((h0 + a) &&& 0xFFFFFFFF, (h1 + b) &&& 0xFFFFFFFF, (h2 + c) &&& 0xFFFFFFFF,
       (h3 + d) &&& 0xFFFFFFFF, (h4 + e) &&& 0xFFFFFFFF)

/-- Split into 64-byte chunks; structural recursion on a fuel bound so
the kernel can evaluate it (each step consumes at least one element, so
`l.length` steps always suffice). -/
def chunks64F : Nat → List Nat → List (List Nat)
  | _, [] => []
  | 0, _ => []
  | f + 1, x :: rest => (x :: rest.take 63) :: chunks64F f (rest.drop 63)

/-- Split into 64-byte chunks. -/
def chunks64 (l : List Nat) : List (List Nat) :=
  chunks64F l.length l

/-- Merkle-Damgard padding: `0x80`, zeros to 56 mod 64, then the bit
length as 8 big-endian bytes. -/
def sha1Pad (msg : List Nat) : List Nat :=
  let L := msg.length * 8
  msg ++ 128 :: List.replicate ((64 - (msg.length + 9) % 64) % 64) 0 ++
    [L >>> 56 &&& 255, L >>> 48 &&& 255, L >>> 40 &&& 255, L >>> 32 &&& 255,
     L >>> 24 &&& 255, L >>> 16 &&& 255, L >>> 8 &&& 255, L &&& 255]

/-- SHA-1 chaining over all padded blocks. -/
def sha1Core (msg : List Nat) : Nat × Nat × Nat × Nat × Nat :=
  (chunks64 (sha1Pad msg)).foldl sha1Block
    (0x67452301, 0xEFCDAB89, 0x98BADCFE, 0x10325476, 0xC3D2E1F0)

/-- SHA-1 digest: the five state words as 20 big-endian bytes. -/
def sha1 (msg : List Nat) : List Nat :=
  match sha1Core msg with
  | (h0, h1, h2, h3, h4) =>
    [h0 >>> 24 &&& 255, h0 >>> 16 &&& 255, h0 >>> 8 &&& 255, h0 &&& 255,
     h1 >>> 24 &&& 255, h1 >>> 16 &&& 255, h1 >>> 8 &&& 255, h1 &&& 255,
     h2 >>> 24 &&& 255, h2 >>> 16 &&& 255, h2 >>> 8 &&& 255, h2 &&& 255,
     h3 >>> 24 &&& 255, h3 >>> 16 &&& 255, h3 >>> 8 &&& 255, h3 &&& 255,
     h4 >>> 24 &&& 255, h4 >>> 16 &&& 255, h4 >>> 8 &&& 255, h4 &&& 255]

/-- Embeds `uuid.NewSHA1` (via `uuid.NewHash` with version 5): hash the
namespace bytes followed by the name bytes, keep the first 16 digest
bytes, then force version 5 (`(b6 & 0x0f) | 0x50`) and the RFC 4122
variant (`(b8 & 0x3f) | 0x80`). -/
def uuidNewSHA1 (space : UUID) (data : List Nat) : UUID :=
  let s := sha1 (space.bytes ++ data)
  { b0 := s.getD 0 0, b1 := s.getD 1 0, b2 := s.getD 2 0, b3 := s.getD 3 0
    b4 := s.getD 4 0, b5 := s.getD 5 0
    b6 := (s.getD 6 0 &&& 15) ||| 80
    b7 := s.getD 7 0
    b8 := (s.getD 8 0 &&& 63) ||| 128
    b9 := s.getD 9 0, b10 := s.getD 10 0, b11 := s.getD 11 0
    b12 := s.getD 12 0, b13 := s.getD 13 0, b14 := s.getD 14 0
    b15 := s.getD 15 0 }

/-- Embeds the normalization step of `MacAddressToUUIDv5`:
`strings.ReplaceAll(macAddress, ":", "")`.  For a one-byte pattern and an
empty replacement, replacing every non-overlapping occurrence is exactly
deleting every `':'` (byte 58). -/
def removeColons (s : List Nat) : List Nat :=
  s.filter (fun c => c ≠ 58)

/-- Embeds `MacAddressToUUIDv5`: strip colons, then UUIDv5 of the result
under the namespace.  The Go function returns `(uuid, nil)` — the error
result is always `nil` — so the model always returns `Except.ok`. -/
def MacAddressToUUIDv5 (macAddress : List Nat) (namespaceID : UUID) :
    Except Unit UUID :=
  .ok (uuidNewSHA1 namespaceID (removeColons macAddress))

/-! ### encoding/base64, StdEncoding

`base64.StdEncoding` uses the standard alphabet with `=` (byte 61)
padding.  On 6-bit values and 24-bit groups the Go shifts and masks are
division and remainder by powers of two: `val>>18&0x3F = val/262144%64`,
`b0>>2 = b0/4`, `b0&0x03<<4 = b0%4*16`, and so on. -/

/-- The StdEncoding alphabet. -/
def b64Alphabet : List Nat :=
  strBytes "ABCDEFGHIJKLMNOPQRSTUVWXYZabcdefghijklmnopqrstuvwxyz0123456789+/"

/-- One alphabet character: `enc.encode[v]`. -/
def b64Char (v : Nat) : Nat :=
  b64Alphabet.getD v 0

/-- The decode map: index of the byte in the alphabet, 255 for a byte
that is not an alphabet character (Go initializes `decodeMap` to `0xFF`
and writes the index of each alphabet byte). -/
def b64DecodeMap (c : Nat) : Nat :=
  match b64Alphabet.findIdx? (fun x => x = c) with
  | some i => i
  | none => 255

/-- Embeds `Encoding.Encode` for StdEncoding: full 3-byte groups become
4 alphabet characters of the 24-bit group; a 2-byte tail becomes 3
characters and one `=`; a 1-byte tail becomes 2 characters and `==`. -/
def base64EncodeGo : List Nat → List Nat
  | b0 :: b1 :: b2 :: rest =>
    let val := b0 * 65536 + b1 * 256 + b2
    b64Char (val / 262144 % 64) :: b64Char (val / 4096 % 64) ::
      b64Char (val / 64 % 64) :: b64Char (val % 64) :: base64EncodeGo rest
  | [b0, b1] =>
    let val := b0 * 65536 + b1 * 256
    [b64Char (val / 262144 % 64), b64Char (val / 4096 % 64),
     b64Char (val / 64 % 64), 61]
  | [b0] =>
    let val := b0 * 65536
    [b64Char (val / 262144 % 64), b64Char (val / 4096 % 64), 61, 61]
  | [] => []

/-- Drop the newline bytes `\n` (10) and `\r` (13), as the decoder's
"skip over newlines" loops do. -/
def skipNewlines (s : List Nat) : List Nat :=
  s.dropWhile (fun c => c = 10 ∨ c = 13)

/-- Reassembly step of `decodeQuantum`: the 6-bit values collected in
`dbuf` form a 24-bit group, of which `dlen - 1` high bytes are emitted
(`dlen` is the number of collected values; the unused low bits of the
last value are dropped without being checked — StdEncoding is not
strict). -/
def b64Assemble (dbuf : List Nat) : List Nat :=
  let val := dbuf.getD 0 0 * 262144 + dbuf.getD 1 0 * 4096 +
    dbuf.getD 2 0 * 64 + dbuf.getD 3 0
  (List.take (dbuf.length - 1)) [val / 65536 % 256, val / 256 % 256, val % 256]

/-- Embeds the scanning loop of `decodeQuantum` of `encoding/base64`,
with `dbuf` holding the 6-bit values collected so far (its length is the
loop index `j`).  Returns the emitted bytes and the unconsumed tail.
Faithful cases, in the order of the Go code: end of input (legal only at
`j = 0` for a padded encoding); an alphabet character; a newline
(skipped); a non-padding invalid character (error); `=` at `j` 0 or 1
(error); `=` at `j = 2` which must be followed, newlines aside, by a
second `=`; `=` at `j = 3`.  After consuming padding, anything left
beyond newlines is trailing garbage and an error. -/
def b64Quantum (src : List Nat) (dbuf : List Nat) :
    Except Unit (List Nat × List Nat) :=
  match src with
  | [] =>
    if dbuf.length = 0 then .ok ([], [])
    else .error ()
  | c :: rest =>
    let out := b64DecodeMap c
    if out ≠ 255 then
      if dbuf.length = 3 then .ok (b64Assemble (dbuf ++ [out]), rest)
      else b64Quantum rest (dbuf ++ [out])
    else if c = 10 ∨ c = 13 then b64Quantum rest dbuf
    else if c ≠ 61 then .error ()
    else
      match dbuf.length with
      | 0 => .error ()
      | 1 => .error ()
      | 2 =>
        match skipNewlines rest with
        | [] => .error ()
        | c2 :: rest2 =>
          if c2 = 61 then
            if skipNewlines rest2 = [] then .ok (b64Assemble dbuf, [])
            else .error ()
          else .error ()
      | _ =>
        if skipNewlines rest = [] then .ok (b64Assemble dbuf, [])
        else .error ()

/-- Embeds the decoding loop of `Encoding.Decode`: quanta are decoded
until the input is exhausted or an error occurs.  The fuel is an upper
bound on the number of quanta; `base64DecodeGo` supplies one that always
suffices. -/
def b64Loop (fuel : Nat) (src : List Nat) : Except Unit (List Nat) :=
  match fuel with
  | 0 => .error ()
  | fuel + 1 =>
    match src with
    | [] => .ok []
    | _ =>
      match b64Quantum src [] with
      | .error e => .error e
      | .ok (bytes, rest) =>
        match b64Loop fuel rest with
        | .ok tl => .ok (bytes ++ tl)
        | .error e => .error e

/-- Embeds `base64.StdEncoding.DecodeString`. -/
def base64DecodeGo (s : List Nat) : Except Unit (List Nat) :=
  b64Loop (s.length + 1) s

/-! ### crypto/ed25519

The signature mathematics is abstract: a `SigScheme` supplies `Sign`'s
output, the public key derived from a private key's upper half, and the
point/scalar checking heart of `Verify`.  The wrapper behaviour of the
Go functions — length preconditions that panic, and the early `false`
for an ill-shaped signature — is modelled concretely:

* `ed25519.Sign` panics unless `len(privateKey) == 64`;
* `ed25519.Verify` panics unless `len(publicKey) == 32`, returns `false`
  when `len(sig) != 64 || sig[63]&224 != 0`, and otherwise runs the real
  verification;
* `ed25519.PrivateKey.Public` copies `priv[32:]`, which panics when the
  private key is shorter than 32 bytes. -/

/-- The abstract Ed25519 primitive. -/
structure SigScheme where
  sign : List Nat → List Nat → List Nat
  verifyCore : List Nat → List Nat → List Nat → Bool
  pubOf : List Nat → List Nat

/-- Embeds `ed25519.Sign`; `none` models the panic on a wrong-length
private key. -/
def ed25519Sign (S : SigScheme) (priv msg : List Nat) : Option (List Nat) :=
  if priv.length = 64 then some (S.sign priv msg) else none

/-- Embeds `ed25519.Verify`; `none` models the panic on a wrong-length
public key. -/
def ed25519Verify (S : SigScheme) (pub msg sig : List Nat) : Option Bool :=
  if pub.length ≠ 32 then none
  else if sig.length ≠ 64 ∨ sig.getD 63 0 &&& 224 ≠ 0 then some false
  else some (S.verifyCore pub msg sig)

/-- Embeds `ed25519.PrivateKey.Public`; `none` models the panic of
`priv[32:]` on a short key. -/
def ed25519Public (S : SigScheme) (priv : List Nat) : Option (List Nat) :=
  if 32 ≤ priv.length then some (S.pubOf priv) else none

/-! ### The license-key system itself (`main.go`) -/

/-- The `Config` struct: key pair and namespace. -/
structure Config where
  PrivateKey : List Nat
  PublicKey : List Nat
  NamespaceID : UUID
  deriving DecidableEq

/-- The serialized form written by `SaveConfig`: the three JSON string
fields.  The JSON text layer (`json.MarshalIndent` / `json.Unmarshal` of
a struct of three strings) is an external collaborator that round-trips
the fields verbatim, so the model works on the field records
directly. -/
structure StoredConfig where
  private_key : List Nat
  public_key : List Nat
  namespace_id : List Nat
  deriving DecidableEq

/-- Embeds `SaveConfig` minus file I/O: hex-encode both keys, render the
namespace UUID canonically. -/
def SaveConfig (config : Config) : StoredConfig :=
  { private_key := hexEncodeGo config.PrivateKey
    public_key := hexEncodeGo config.PublicKey
    namespace_id := uuidToString config.NamespaceID }

/-- Which field of a stored config failed to parse. -/
inductive LoadErr where
  | privKeyFormat
  | namespaceFormat
  deriving DecidableEq

/-- Outcome of `LoadConfig` minus file I/O: a config, a format error, or
a panic escaping from `PrivateKey.Public`. -/
inductive LResult where
  | ok (c : Config)
  | formatErr (e : LoadErr)
  | panicked
  deriving DecidableEq

/-- Embeds `LoadConfig` minus file I/O, in the order of the Go code:
hex-decode the private key (error on failure), parse the namespace UUID
(error on failure), then set the public key to `privKey.Public()`.  The
stored `public_key` field is never read. -/
def LoadConfig (S : SigScheme) (d : StoredConfig) : LResult :=
  match hexDecodeGo d.private_key with
  | .error _ => .formatErr .privKeyFormat
  | .ok privKeyBytes =>
    match uuidParse d.namespace_id with
    | .error _ => .formatErr .namespaceFormat
    | .ok namespaceID =>
      match ed25519Public S privKeyBytes with
      | none => .panicked
      | some pubKey =>
        .ok { PrivateKey := privKeyBytes, PublicKey := pubKey,
              NamespaceID := namespaceID }

/-- Embeds `GenerateLicenseKey`: sign the sixteen UUID bytes, encode the
signature in standard base64.  `none` models the panic of `ed25519.Sign`
on a wrong-length private key; the Go function's own error result is
always `nil`. -/
def GenerateLicenseKey (S : SigScheme) (config : Config) (id : UUID) :
    Option (List Nat) :=
  match ed25519Sign S config.PrivateKey id.bytes with
  | none => none
  | some signature => some (base64EncodeGo signature)

/-- Which field of a verification request was malformed. -/
inductive VField where
  | pubKeyFormat
  | uuidFormat
  | licKeyFormat
  deriving DecidableEq

/-- Outcome of `VerifyLicense`: a boolean, a format error naming the
offending field, or a panic escaping from `ed25519.Verify`. -/
inductive VResult where
  | ok (b : Bool)
  | formatErr (e : VField)
  | panicked
  deriving DecidableEq

/-- Embeds `VerifyLicense`, in the order of the Go code: hex-decode the
public key, parse the UUID, base64-decode the license key — each failure
is a distinct format error — then `ed25519.Verify` on the UUID bytes.
The `namespaceIDStr` parameter is declared but never read by the Go
function. -/
def VerifyLicense (S : SigScheme) (publicKeyHex idStr licenseKey : List Nat)
    (_namespaceIDStr : List Nat) : VResult :=
  match hexDecodeGo publicKeyHex with
  | .error _ => .formatErr .pubKeyFormat
  | .ok publicKeyBytes =>
    match uuidParse idStr with
    | .error _ => .formatErr .uuidFormat
    | .ok id =>
      match base64DecodeGo licenseKey with
      | .error _ => .formatErr .licKeyFormat
      | .ok signature =>
        match ed25519Verify S publicKeyBytes id.bytes signature with
        | none => .panicked
        | some valid => .ok valid

/-- The `LicenseData` struct (all fields Go strings). -/
structure LicenseData where
  DeviceID : List Nat
  DeviceUUID : List Nat
  LicenseKey : List Nat
  PublicKey : List Nat
  PrivateKey : List Nat
  NamespaceID : List Nat
  deriving DecidableEq

/-- Outcome of the `verify` command's core. -/
inductive CmdVResult where
  | nsParseError
  | macError
  | verified (r : VResult)
  deriving DecidableEq

/-- Embeds `commandVerifyLicense` minus file and flag I/O, starting from
a loaded license record and the MAC address string presented at
verification time: parse the record's namespace, re-derive the device
UUID from the presented MAC under that namespace, then call
`VerifyLicense` with the record's public key, the re-derived UUID's
text, the record's license key and namespace text.  The record's
`DeviceUUID` (and `DeviceID`) fields are never read; the `macError`
branch mirrors the Go error check on `MacAddressToUUIDv5`, whose error
is always `nil`. -/
def commandVerifyCore (S : SigScheme) (licenseData : LicenseData)
    (macAddress : List Nat) : CmdVResult :=
  match uuidParse licenseData.NamespaceID with
  | .error _ => .nsParseError
  | .ok namespaceID =>
    match MacAddressToUUIDv5 macAddress namespaceID with
    | .error _ => .macError
    | .ok deviceUUID =>
      .verified (VerifyLicense S licenseData.PublicKey
        (uuidToString deviceUUID) licenseData.LicenseKey
        licenseData.NamespaceID)

/-! ### Concrete instances for witnesses and counterexamples

A small executable `SigScheme` standing in for the abstract Ed25519
primitive: signatures are the message followed by 48 zero bytes (so they
are 64 bytes long with a zero top byte, like real Ed25519 signatures),
the public key is the first 32 bytes of the private key, and core
verification recomputes the expected signature. -/

def toySig : SigScheme where
  sign := fun _ m => m ++ List.replicate 48 0
  verifyCore := fun _ m s => s == m ++ List.replicate 48 0
  pubOf := fun p => p.take 32

/-- A 64-byte private key. -/
def toyPriv : List Nat := List.replicate 64 7

/-- The DNS namespace UUID `6ba7b810-9dad-11d1-80b4-00c04fd430c8`, the
concrete namespace of the spec's worked scenario. -/
def nsDNS : UUID :=
  ⟨0x6b, 0xa7, 0xb8, 0x10, 0x9d, 0xad, 0x11, 0xd1,
   0x80, 0xb4, 0x00, 0xc0, 0x4f, 0xd4, 0x30, 0xc8⟩

/-- A concrete licensor configuration. -/
def toyConfig : Config :=
  { PrivateKey := toyPriv, PublicKey := toySig.pubOf toyPriv, NamespaceID := nsDNS }

/-- The spec's sample MAC address. -/
def macSample : List Nat := strBytes "AA:BB:CC:DD:EE:FF"

/-- The device UUID the sample MAC derives to under `nsDNS`. -/
def devUUID : UUID := uuidNewSHA1 nsDNS (removeColons macSample)

/-- The license key issued for `devUUID` by the toy configuration. -/
def toyKey : List Nat := base64EncodeGo (toySig.sign toyPriv devUUID.bytes)

/-- Flip bit `k` of the byte at index `i`. -/
def flipBitAt (i k : Nat) : List Nat → List Nat
  | [] => []
  | c :: rest =>
    match i with
    | 0 => (c ^^^ (1 <<< k)) :: rest
    | i + 1 => c :: flipBitAt i k rest

/-! ### Library lemmas: hex round-trip -/

/-- Hex digits of each nibble of a byte decode back to the nibble. -/
theorem fromHexChar_hexDigit : ∀ v < 16, fromHexChar (hexDigit v) = some v := by
  decide

/-- Decoding inverts encoding on byte lists. -/
theorem hexDecode_hexEncode :
    ∀ bs : List Nat, (∀ b ∈ bs, b < 256) → hexDecodeGo (hexEncodeGo bs) = .ok bs := by
  intro bs hbs
  induction bs with
  | nil => rfl
  | cons b rest ih =>
    have hb : b < 256 := hbs b (List.mem_cons_self b rest)
    have hrest : ∀ x ∈ rest, x < 256 := fun x hx => hbs x (List.mem_cons_of_mem b hx)
    have hhi : b / 16 < 16 := by omega
    have hlo : b % 16 < 16 := by omega
    simp only [hexEncodeGo, hexDecodeGo, fromHexChar_hexDigit _ hhi,
      fromHexChar_hexDigit _ hlo, ih hrest]
    have e : b / 16 * 16 + b % 16 = b := by omega
    simp [e]

/-! ### Library lemmas: UUID text round-trip -/

set_option maxRecDepth 4000 in
/-- The hex pair of a byte parses back to the byte via `xtob`. -/
theorem xtob_hexPair : ∀ b < 256, xtob (hexDigit (b / 16)) (hexDigit (b % 16)) = some b := by
  decide

/-- The canonical text of a UUID has 36 characters. -/
theorem uuidToString_length (u : UUID) : (uuidToString u).length = 36 := by
  simp [uuidToString]

/-- `uuid.Parse` inverts `UUID.String`. -/
theorem uuidParse_toString (u : UUID) (h : u.valid) :
    uuidParse (uuidToString u) = .ok u := by
  obtain ⟨h0, h1, h2, h3, h4, h5, h6, h7, h8, h9, h10, h11, h12, h13, h14, h15⟩ := h
  have : parse36 (uuidToString u) = .ok u := by
    simp only [uuidToString, parse36]
    rw [xtob_hexPair u.b0 h0, xtob_hexPair u.b1 h1, xtob_hexPair u.b2 h2,
      xtob_hexPair u.b3 h3, xtob_hexPair u.b4 h4, xtob_hexPair u.b5 h5,
      xtob_hexPair u.b6 h6, xtob_hexPair u.b7 h7, xtob_hexPair u.b8 h8,
      xtob_hexPair u.b9 h9, xtob_hexPair u.b10 h10, xtob_hexPair u.b11 h11,
      xtob_hexPair u.b12 h12, xtob_hexPair u.b13 h13, xtob_hexPair u.b14 h14,
      xtob_hexPair u.b15 h15]
    simp
  simp [uuidParse, uuidToString_length, this]

/-! ### Library lemmas: base64 round-trip -/

set_option maxRecDepth 8000 in
/-- The decode map inverts the alphabet. -/
theorem b64DecodeMap_b64Char : ∀ v < 64, b64DecodeMap (b64Char v) = v := by
  decide

/-- Scanning step on an alphabet character with fewer than three values
collected. -/
theorem b64Quantum_alpha (c : Nat) (rest dbuf : List Nat)
    (h : b64DecodeMap c ≠ 255) (hlen : dbuf.length ≠ 3) :
    b64Quantum (c :: rest) dbuf = b64Quantum rest (dbuf ++ [b64DecodeMap c]) := by
  simp [b64Quantum, h, hlen]

/-- Scanning step on the fourth alphabet character: the quantum is
complete. -/
theorem b64Quantum_last (c : Nat) (rest dbuf : List Nat)
    (h : b64DecodeMap c ≠ 255) (hlen : dbuf.length = 3) :
    b64Quantum (c :: rest) dbuf = .ok (b64Assemble (dbuf ++ [b64DecodeMap c]), rest) := by
  simp [b64Quantum, h, hlen]

/-- A full quantum of four alphabet characters decodes in one step. -/
theorem b64Quantum_group (v0 v1 v2 v3 : Nat) (tail : List Nat)
    (h0 : v0 < 64) (h1 : v1 < 64) (h2 : v2 < 64) (h3 : v3 < 64) :
    b64Quantum (b64Char v0 :: b64Char v1 :: b64Char v2 :: b64Char v3 :: tail) [] =
      .ok (b64Assemble [v0, v1, v2, v3], tail) := by
  have e0 := b64DecodeMap_b64Char v0 h0
  have e1 := b64DecodeMap_b64Char v1 h1
  have e2 := b64DecodeMap_b64Char v2 h2
  have e3 := b64DecodeMap_b64Char v3 h3
  rw [b64Quantum_alpha _ _ _ (by omega) (by simp)]
  simp only [e0, List.nil_append]
  rw [b64Quantum_alpha _ _ _ (by omega) (by simp)]
  simp only [e1, List.cons_append, List.nil_append]
  rw [b64Quantum_alpha _ _ _ (by omega) (by simp)]
  simp only [e2, List.cons_append, List.nil_append]
  rw [b64Quantum_last _ _ _ (by omega) (by simp)]
  simp only [e3, List.cons_append, List.nil_append]

/-- A final quantum `c c = =` (one payload byte). -/
theorem b64Quantum_pad2 (v0 v1 : Nat) (h0 : v0 < 64) (h1 : v1 < 64) :
    b64Quantum [b64Char v0, b64Char v1, 61, 61] [] =
      .ok (b64Assemble [v0, v1], []) := by
  have e0 := b64DecodeMap_b64Char v0 h0
  have e1 := b64DecodeMap_b64Char v1 h1
  rw [b64Quantum_alpha _ _ _ (by omega) (by simp)]
  simp only [e0, List.nil_append]
  rw [b64Quantum_alpha _ _ _ (by omega) (by simp)]
  simp only [e1, List.cons_append, List.nil_append]
  have hm : b64DecodeMap 61 = 255 := by decide
  simp [b64Quantum, hm, skipNewlines]

/-- A final quantum `c c c =` (two payload bytes). -/
theorem b64Quantum_pad1 (v0 v1 v2 : Nat) (h0 : v0 < 64) (h1 : v1 < 64)
    (h2 : v2 < 64) :
    b64Quantum [b64Char v0, b64Char v1, b64Char v2, 61] [] =
      .ok (b64Assemble [v0, v1, v2], []) := by
  have e0 := b64DecodeMap_b64Char v0 h0
  have e1 := b64DecodeMap_b64Char v1 h1
  have e2 := b64DecodeMap_b64Char v2 h2
  rw [b64Quantum_alpha _ _ _ (by omega) (by simp)]
  simp only [e0, List.nil_append]
  rw [b64Quantum_alpha _ _ _ (by omega) (by simp)]
  simp only [e1, List.cons_append, List.nil_append]
  rw [b64Quantum_alpha _ _ _ (by omega) (by simp)]
  simp only [e2, List.cons_append, List.nil_append]
  have hm : b64DecodeMap 61 = 255 := by decide
  simp [b64Quantum, hm, skipNewlines]

/-- Decoding inverts encoding on byte lists (with any sufficient
fuel). -/
theorem b64Loop_encode :
    ∀ (fuel : Nat) (bs : List Nat), (∀ b ∈ bs, b < 256) → bs.length < fuel →
      b64Loop fuel (base64EncodeGo bs) = .ok bs := by
  intro fuel
  induction fuel with
  | zero => intro bs _ h; omega
  | succ f ih =>
    intro bs hbs hlen
    match bs with
    | [] => simp [base64EncodeGo, b64Loop]
    | [b0] =>
      have h0 : b0 < 256 := hbs b0 (by simp)
      have hf : 1 ≤ f := by simp at hlen; omega
      obtain ⟨f', rfl⟩ : ∃ g, f = g + 1 := ⟨f - 1, by omega⟩
      simp only [base64EncodeGo, b64Loop]
      rw [b64Quantum_pad2 _ _ (by omega) (by omega)]
      simp [b64Assemble, b64Loop]
      omega
    | [b0, b1] =>
      have h0 : b0 < 256 := hbs b0 (by simp)
      have h1 : b1 < 256 := hbs b1 (by simp)
      have hf : 1 ≤ f := by simp at hlen; omega
      obtain ⟨f', rfl⟩ : ∃ g, f = g + 1 := ⟨f - 1, by omega⟩
      simp only [base64EncodeGo, b64Loop]
      rw [b64Quantum_pad1 _ _ _ (by omega) (by omega) (by omega)]
      simp [b64Assemble, b64Loop]
      omega
    | b0 :: b1 :: b2 :: rest =>
      have h0 : b0 < 256 := hbs b0 (by simp)
      have h1 : b1 < 256 := hbs b1 (by simp)
      have h2 : b2 < 256 := hbs b2 (by simp)
      have hrest : ∀ b ∈ rest, b < 256 := fun b hb => hbs b (by simp [hb])
      have hrl : rest.length < f := by
        simp at hlen; omega
      simp only [base64EncodeGo, b64Loop]
      rw [b64Quantum_group _ _ _ _ _ (by omega) (by omega) (by omega) (by omega)]
      simp only [ih rest hrest hrl, b64Assemble]
      simp
      omega

/-- Decoding inverts encoding: `DecodeString(EncodeToString(bs)) = bs`
for every byte list. -/
theorem base64Decode_encode (bs : List Nat) (hbs : ∀ b ∈ bs, b < 256) :
    base64DecodeGo (base64EncodeGo bs) = .ok bs := by
  have hgrow : ∀ l : List Nat, l.length ≤ (base64EncodeGo l).length := by
    intro l
    induction l using base64EncodeGo.induct with
    | case1 b0 b1 b2 rest ih => simp [base64EncodeGo]; omega
    | case2 b0 b1 => simp [base64EncodeGo]
    | case3 b0 => simp [base64EncodeGo]
    | case4 => simp [base64EncodeGo]
  exact b64Loop_encode _ bs hbs (by have := hgrow bs; omega)

/-! ### Library lemmas: derived identities are byte-valued -/

/-- A 255-mask is a byte. -/
theorem and255_lt (x : Nat) : x &&& 255 < 256 :=
  Nat.lt_succ_of_le Nat.and_le_right

/-- The version byte set by `NewHash` is a byte. -/
theorem versionByte_lt (x : Nat) : (x &&& 15) ||| 80 < 256 := by
  have h : x &&& 15 < 16 := Nat.lt_succ_of_le Nat.and_le_right
  exact (by decide : ∀ v < 16, v ||| 80 < 256) _ h

/-- The variant byte set by `NewHash` is a byte. -/
theorem variantByte_lt (x : Nat) : (x &&& 63) ||| 128 < 256 := by
  have h : x &&& 63 < 64 := Nat.lt_succ_of_le Nat.and_le_right
  exact (by decide : ∀ v < 64, v ||| 128 < 256) _ h

/-- Every UUID produced by `uuid.NewSHA1` is byte-valued. -/
theorem uuidNewSHA1_valid (space : UUID) (data : List Nat) :
    (uuidNewSHA1 space data).valid := by
  rcases hs : sha1Core (space.bytes ++ data) with ⟨h0, h1, h2, h3, h4⟩
  simp only [uuidNewSHA1, sha1, hs, UUID.valid]
  refine ⟨?_, ?_, ?_, ?_, ?_, ?_, ?_, ?_, ?_, ?_, ?_, ?_, ?_, ?_, ?_, ?_⟩ <;>
    first
      | exact and255_lt _
      | exact versionByte_lt _
      | exact variantByte_lt _

/-! ### The claims -/

/-- C1: for every keypair `k` (public key the 32-byte public component of
the 64-byte private key, as `GenerateKeyPair` produces, and with the
Ed25519 facts that the signature of the 16 identity bytes is 64 bytes
with three zero top bits and verifies under the matching public key) and
every raw identifier `r`, issuing a license — deriving the device
identity from `r` under `k`'s namespace, signing its 16 raw bytes,
base64-encoding the signature — and then verifying with the hex-encoded
public key of `k`, the re-derived identity and that license key returns
`true`. -/
theorem C1_issue_then_verify (S : SigScheme) (k : Config) (r nsArg : List Nat)
    (du : UUID) (key : List Nat)
    (hderive : MacAddressToUUIDv5 r k.NamespaceID = .ok du)
    (hkey : GenerateLicenseKey S k du = some key)
    (hpub : k.PublicKey = S.pubOf k.PrivateKey)
    (hpublen : k.PublicKey.length = 32)
    (hpubbytes : ∀ b ∈ k.PublicKey, b < 256)
    (hprivlen : k.PrivateKey.length = 64)
    (hsiglen : (S.sign k.PrivateKey du.bytes).length = 64)
    (hsigbytes : ∀ b ∈ S.sign k.PrivateKey du.bytes, b < 256)
    (hsigtop : (S.sign k.PrivateKey du.bytes).getD 63 0 &&& 224 = 0)
    (hcorr : S.verifyCore (S.pubOf k.PrivateKey) du.bytes
      (S.sign k.PrivateKey du.bytes) = true) :
    VerifyLicense S (hexEncodeGo k.PublicKey) (uuidToString du) key nsArg =
      .ok true := by
  have hdu : du = uuidNewSHA1 k.NamespaceID (removeColons r) := by
    have h := hderive
    simp [MacAddressToUUIDv5] at h
    exact h.symm
  have hval : du.valid := by
    rw [hdu]; exact uuidNewSHA1_valid _ _
  have hkeyeq : key = base64EncodeGo (S.sign k.PrivateKey du.bytes) := by
    have h := hkey
    simp [GenerateLicenseKey, ed25519Sign, hprivlen] at h
    exact h.symm
  simp only [VerifyLicense]
  rw [hexDecode_hexEncode _ hpubbytes]
  rw [uuidParse_toString du hval]
  rw [hkeyeq, base64Decode_encode _ hsigbytes]
  simp only [ed25519Verify, hpublen, hsiglen, hsigtop]
  simp [hpub, hcorr]

set_option maxRecDepth 100000 in
/-- C1 witness: the toy scheme, the sample MAC and the DNS namespace,
all hypotheses discharged by computation. -/
theorem C1_issue_then_verify_witness :
    VerifyLicense toySig (hexEncodeGo toyConfig.PublicKey)
      (uuidToString devUUID) toyKey (uuidToString nsDNS) = .ok true :=
  C1_issue_then_verify toySig toyConfig macSample (uuidToString nsDNS)
    devUUID toyKey rfl rfl rfl (by decide) (by decide) (by decide) (by decide)
    (by decide) (by decide) (by decide)

/-- C2: the `verify` command re-derives the device identity from the MAC
address presented at verification time; the stored `DeviceUUID` field of
the license record is never consulted (any two records differing only in
it verify identically), and the `VerifyLicense` call receives exactly
the re-derived identity's text. -/
theorem C2_verifier_rederives (S : SigScheme) (ld : LicenseData)
    (mac d1 d2 : List Nat) :
    commandVerifyCore S { ld with DeviceUUID := d1 } mac =
      commandVerifyCore S { ld with DeviceUUID := d2 } mac ∧
    ∀ ns, uuidParse ld.NamespaceID = .ok ns →
      commandVerifyCore S ld mac =
        .verified (VerifyLicense S ld.PublicKey
          (uuidToString (uuidNewSHA1 ns (removeColons mac)))
          ld.LicenseKey ld.NamespaceID) := by
  constructor
  · rfl
  · intro ns hns
    simp [commandVerifyCore, hns, MacAddressToUUIDv5]

/-- C2 witness: a concrete record whose stored `DeviceUUID` is garbage
verifies exactly as one with the true derived identity, and the verifier
call uses the identity re-derived from the presented MAC. -/
theorem C2_verifier_rederives_witness :
    commandVerifyCore toySig
      { DeviceID := macSample, DeviceUUID := strBytes "garbage",
        LicenseKey := toyKey, PublicKey := hexEncodeGo toyConfig.PublicKey,
        PrivateKey := [], NamespaceID := uuidToString nsDNS } macSample =
      commandVerifyCore toySig
      { DeviceID := macSample, DeviceUUID := uuidToString devUUID,
        LicenseKey := toyKey, PublicKey := hexEncodeGo toyConfig.PublicKey,
        PrivateKey := [], NamespaceID := uuidToString nsDNS } macSample ∧
    commandVerifyCore toySig
      { DeviceID := macSample, DeviceUUID := strBytes "garbage",
        LicenseKey := toyKey, PublicKey := hexEncodeGo toyConfig.PublicKey,
        PrivateKey := [], NamespaceID := uuidToString nsDNS } macSample =
      .verified (VerifyLicense toySig (hexEncodeGo toyConfig.PublicKey)
        (uuidToString (uuidNewSHA1 nsDNS (removeColons macSample)))
        toyKey (uuidToString nsDNS)) := by
  refine ⟨(C2_verifier_rederives toySig
    { DeviceID := macSample, DeviceUUID := strBytes "garbage",
      LicenseKey := toyKey, PublicKey := hexEncodeGo toyConfig.PublicKey,
      PrivateKey := [], NamespaceID := uuidToString nsDNS } macSample
    (strBytes "garbage") (uuidToString devUUID)).1, ?_⟩
  exact (C2_verifier_rederives toySig
    { DeviceID := macSample, DeviceUUID := strBytes "garbage",
      LicenseKey := toyKey, PublicKey := hexEncodeGo toyConfig.PublicKey,
      PrivateKey := [], NamespaceID := uuidToString nsDNS } macSample
    (strBytes "garbage") (uuidToString devUUID)).2 nsDNS
    (uuidParse_toString nsDNS (by decide))

/-- C3 counterexample: `"0102"` is well-formed hex decoding to a 2-byte
key; with a well-formed UUID and license key, `VerifyLicense` does not
produce a format error — the unchecked key reaches `ed25519.Verify`,
which panics on the wrong length. -/
theorem C3_wrong_length_counterexample :
    VerifyLicense toySig (strBytes "0102") (uuidToString nsDNS)
      (base64EncodeGo (List.replicate 64 0)) [] = .panicked := by
  decide

/-- C3 as amended: malformed hex in the public-key field yields a
`FormatError`, but a hex string decoding to a key of length other than
32 is not detected as a format error — when the UUID and license-key
fields parse, the wrong-length key is passed to `ed25519.Verify`, which
panics. -/
theorem C3_pubkey_error_handling (S : SigScheme) (pubHex idStr key ns : List Nat) :
    (hexDecodeGo pubHex = .error () →
      VerifyLicense S pubHex idStr key ns = .formatErr .pubKeyFormat) ∧
    (∀ pb u sig, hexDecodeGo pubHex = .ok pb → pb.length ≠ 32 →
      uuidParse idStr = .ok u → base64DecodeGo key = .ok sig →
      VerifyLicense S pubHex idStr key ns = .panicked) := by
  constructor
  · intro h
    simp [VerifyLicense, h]
  · intro pb u sig hpb hlen hu hsig
    simp [VerifyLicense, hpb, hu, hsig, ed25519Verify, hlen]

/-- C3 witness: both amended branches at concrete inputs — `"zz"` is
malformed hex, `"0102"` decodes to 2 bytes and panics. -/
theorem C3_pubkey_error_handling_witness :
    VerifyLicense toySig (strBytes "zz") (uuidToString nsDNS)
      (base64EncodeGo (List.replicate 64 0)) [] = .formatErr .pubKeyFormat ∧
    VerifyLicense toySig (strBytes "0102") (uuidToString nsDNS)
      (base64EncodeGo (List.replicate 64 0)) [] = .panicked :=
  ⟨(C3_pubkey_error_handling toySig (strBytes "zz") (uuidToString nsDNS)
      (base64EncodeGo (List.replicate 64 0)) []).1 rfl,
   (C3_pubkey_error_handling toySig (strBytes "0102") (uuidToString nsDNS)
      (base64EncodeGo (List.replicate 64 0)) []).2 [1, 2] nsDNS
      (List.replicate 64 0) rfl (by decide)
      (uuidParse_toString nsDNS (by decide)) rfl⟩

/-- C4: loading a saved configuration returns it bit for bit, for every
valid `Config` — public key equal to the public component of the private
key (which is at least 32 bytes long), byte-valued fields. -/
theorem C4_save_load_roundtrip (S : SigScheme) (k : Config)
    (hpub : k.PublicKey = S.pubOf k.PrivateKey)
    (hprivbytes : ∀ b ∈ k.PrivateKey, b < 256)
    (hprivlen : 32 ≤ k.PrivateKey.length)
    (hns : k.NamespaceID.valid) :
    LoadConfig S (SaveConfig k) = .ok k := by
  simp only [LoadConfig, SaveConfig]
  rw [hexDecode_hexEncode _ hprivbytes]
  rw [uuidParse_toString _ hns]
  simp [ed25519Public, hprivlen, ← hpub]

/-- C4 witness: the toy configuration round-trips. -/
theorem C4_save_load_roundtrip_witness :
    LoadConfig toySig (SaveConfig toyConfig) = .ok toyConfig :=
  C4_save_load_roundtrip toySig toyConfig rfl (by decide) (by decide) (by decide)

/-- C5 counterexample: a stored record whose `public_key` field is not
even hex — certainly inconsistent with the private key — loads
successfully; no consistency check is made and no `FormatError` is
raised. -/
theorem C5_no_consistency_check_counterexample :
    LoadConfig toySig
      { private_key := hexEncodeGo toyPriv,
        public_key := strBytes "THIS IS NOT A KEY",
        namespace_id := uuidToString nsDNS } =
      .ok { PrivateKey := toyPriv, PublicKey := toySig.pubOf toyPriv,
            NamespaceID := nsDNS } := by
  decide

/-- C5 as amended: `LoadConfig` performs no consistency check at all —
the stored public-key field is ignored and the returned public key is
recomputed from the private key, so loading succeeds whatever the stored
public-key field contains. -/
theorem C5_load_ignores_stored_pubkey (S : SigScheme) (priv pubField : List Nat)
    (ns : UUID) (hprivbytes : ∀ b ∈ priv, b < 256)
    (hprivlen : 32 ≤ priv.length) (hns : ns.valid) :
    LoadConfig S
      { private_key := hexEncodeGo priv, public_key := pubField,
        namespace_id := uuidToString ns } =
      .ok { PrivateKey := priv, PublicKey := S.pubOf priv, NamespaceID := ns } := by
  simp only [LoadConfig]
  rw [hexDecode_hexEncode _ hprivbytes]
  rw [uuidParse_toString _ hns]
  simp [ed25519Public, hprivlen]

/-- C5 witness: loading with a garbage stored public key succeeds and
recomputes the public key. -/
theorem C5_load_ignores_stored_pubkey_witness :
    LoadConfig toySig
      { private_key := hexEncodeGo toyPriv,
        public_key := strBytes "ANOTHER GARBAGE VALUE",
        namespace_id := uuidToString nsDNS } =
      .ok { PrivateKey := toyPriv, PublicKey := toySig.pubOf toyPriv,
            NamespaceID := nsDNS } :=
  C5_load_ignores_stored_pubkey toySig toyPriv (strBytes "ANOTHER GARBAGE VALUE")
    nsDNS (by decide) (by decide) (by decide)

set_option maxRecDepth 100000 in
/-- C6 counterexample: flipping bit 0 of the final `=` of the concrete
valid license key `toyKey` turns it into `<`, which is not a base64
character, and `VerifyLicense` returns a format error — not the boolean
`false` the claim requires. -/
theorem C6_bitflip_counterexample :
    VerifyLicense toySig (hexEncodeGo toyConfig.PublicKey)
      (uuidToString devUUID) (flipBitAt 87 0 toyKey)
      (uuidToString nsDNS) ≠ .ok false := by
  decide

set_option maxRecDepth 100000 in
/-- C6 as amended: flipping a single bit of a valid license key does not
always make `verify` return `false`: a flip that produces a character
outside the base64 alphabet (here the final `=` becoming `<`) yields a
`FormatError`, and a flip confined to the trailing padding bits the
decoder ignores (here the 86th character `A` becoming `C`) leaves the
decoded signature unchanged, so `verify` still returns `true`. -/
theorem C6_bitflip_outcomes :
    VerifyLicense toySig (hexEncodeGo toyConfig.PublicKey)
      (uuidToString devUUID) (flipBitAt 87 0 toyKey)
      (uuidToString nsDNS) = .formatErr .licKeyFormat ∧
    VerifyLicense toySig (hexEncodeGo toyConfig.PublicKey)
      (uuidToString devUUID) (flipBitAt 85 1 toyKey)
      (uuidToString nsDNS) = .ok true := by
  exact ⟨by decide, by decide⟩

/-- C7: verification distinguishes outcomes — on well-formed input
(valid hex public key of the right length, parseable UUID, valid base64
license key) whose signature does not check, the result is the plain
boolean `false` with no error; and whenever the license key is not valid
base64, the result is a `FormatError` on one of the input fields, never
a boolean. -/
theorem C7_false_vs_format_error (S : SigScheme) (pubHex idStr key ns : List Nat) :
    (∀ pb u sig, hexDecodeGo pubHex = .ok pb → pb.length = 32 →
      uuidParse idStr = .ok u → base64DecodeGo key = .ok sig →
      S.verifyCore pb u.bytes sig = false →
      VerifyLicense S pubHex idStr key ns = .ok false) ∧
    (base64DecodeGo key = .error () →
      VerifyLicense S pubHex idStr key ns = .formatErr .pubKeyFormat ∨
      VerifyLicense S pubHex idStr key ns = .formatErr .uuidFormat ∨
      VerifyLicense S pubHex idStr key ns = .formatErr .licKeyFormat) := by
  constructor
  · intro pb u sig hpb hlen hu hsig hcore
    simp only [VerifyLicense, hpb, hu, hsig]
    simp only [ed25519Verify, hlen]
    rw [if_neg (by omega)]
    by_cases hshape : sig.length ≠ 64 ∨ sig.getD 63 0 &&& 224 ≠ 0
    · rw [if_pos hshape]
    · rw [if_neg hshape]
      simp [hcore]
  · intro hbad
    cases he : hexDecodeGo pubHex with
    | error e =>
      left; simp [VerifyLicense, he]
    | ok pb =>
      cases hu : uuidParse idStr with
      | error e =>
        right; left; simp [VerifyLicense, he, hu]
      | ok u =>
        right; right; simp [VerifyLicense, he, hu, hbad]

set_option maxRecDepth 100000 in
/-- C7 witness: the all-zero 64-byte signature is well-formed but does
not check for `devUUID`, giving `false`; the string `"!!!"` is not
base64 and gives the license-key format error. -/
theorem C7_false_vs_format_error_witness :
    VerifyLicense toySig (hexEncodeGo toyConfig.PublicKey)
      (uuidToString devUUID) (base64EncodeGo (List.replicate 64 0))
      (uuidToString nsDNS) = .ok false ∧
    VerifyLicense toySig (hexEncodeGo toyConfig.PublicKey)
      (uuidToString devUUID) (strBytes "!!!")
      (uuidToString nsDNS) = .formatErr .licKeyFormat := by
  constructor
  · exact (C7_false_vs_format_error toySig (hexEncodeGo toyConfig.PublicKey)
      (uuidToString devUUID) (base64EncodeGo (List.replicate 64 0))
      (uuidToString nsDNS)).1 (toySig.pubOf toyPriv) devUUID
      (List.replicate 64 0) rfl (by decide)
      (uuidParse_toString devUUID (uuidNewSHA1_valid nsDNS (removeColons macSample)))
      rfl (by decide)
  · have h := (C7_false_vs_format_error toySig (hexEncodeGo toyConfig.PublicKey)
      (uuidToString devUUID) (strBytes "!!!") (uuidToString nsDNS)).2 rfl
    rcases h with h | h | h
    · exact absurd h (by decide)
    · exact absurd h (by decide)
    · exact h

/-- C8: identity derivation is total (the error result is always `nil`),
deterministic, and normalizes by deleting separator colons, so the
colon-separated and plain spellings of the sample MAC derive to the same
identity under every namespace. -/
theorem C8_derivation_total_normalizing :
    (∀ mac ns, MacAddressToUUIDv5 mac ns =
      .ok (uuidNewSHA1 ns (removeColons mac))) ∧
    (∀ mac ns, MacAddressToUUIDv5 mac ns = MacAddressToUUIDv5 mac ns) ∧
    (∀ ns, MacAddressToUUIDv5 (strBytes "AA:BB:CC:DD:EE:FF") ns =
      MacAddressToUUIDv5 (strBytes "AABBCCDDEEFF") ns) := by
  refine ⟨fun mac ns => rfl, fun mac ns => rfl, fun ns => ?_⟩
  have h : removeColons (strBytes "AA:BB:CC:DD:EE:FF") =
      strBytes "AABBCCDDEEFF" := by decide
  have h2 : removeColons (strBytes "AABBCCDDEEFF") =
      strBytes "AABBCCDDEEFF" := by decide
  simp [MacAddressToUUIDv5, h, h2]

/-- C9: `VerifyLicense` never reads its `namespaceIDStr` parameter — two
calls differing only there return identical results. -/
theorem C9_namespace_arg_ignored (S : SigScheme)
    (pubHex idStr key ns1 ns2 : List Nat) :
    VerifyLicense S pubHex idStr key ns1 =
      VerifyLicense S pubHex idStr key ns2 := rfl

/-- C10: the stored `public_key` field plays no part in loading — records
differing only there load identically — and every successfully loaded
config has its public key recomputed as the public component of its
private key. -/
theorem C10_loaded_pubkey_recomputed (S : SigScheme) (d : StoredConfig)
    (p1 p2 : List Nat) :
    LoadConfig S { d with public_key := p1 } =
      LoadConfig S { d with public_key := p2 } ∧
    ∀ c, LoadConfig S d = .ok c → c.PublicKey = S.pubOf c.PrivateKey := by
  refine ⟨rfl, ?_⟩
  intro c hc
  cases he : hexDecodeGo d.private_key with
  | error e => simp [LoadConfig, he] at hc
  | ok pb =>
    cases hn : uuidParse d.namespace_id with
    | error e => simp [LoadConfig, he, hn] at hc
    | ok ns =>
      by_cases hp : 32 ≤ pb.length
      · simp [LoadConfig, he, hn, ed25519Public, hp] at hc
        rw [← hc]
      · simp [LoadConfig, he, hn, ed25519Public, hp] at hc

/-- C10 witness: two garbage stored public keys load identically, and the
toy configuration's loaded public key is the private key's public
component. -/
theorem C10_loaded_pubkey_recomputed_witness :
    LoadConfig toySig { SaveConfig toyConfig with public_key := strBytes "junk" } =
      LoadConfig toySig { SaveConfig toyConfig with public_key := strBytes "mess" } ∧
    toyConfig.PublicKey = toySig.pubOf toyConfig.PrivateKey :=
  ⟨(C10_loaded_pubkey_recomputed toySig (SaveConfig toyConfig)
      (strBytes "junk") (strBytes "mess")).1,
   (C10_loaded_pubkey_recomputed toySig (SaveConfig toyConfig)
      (strBytes "junk") (strBytes "mess")).2 toyConfig (by decide)⟩
